import Mathlib

/-!
Verification of the technology-cost preprocessing and model-assembly pipeline
of the `gasunie-workshop` notebooks.

The embedding follows the costs preprocessing cell and the economic formulas of
`02-pypsa-investment.ipynb`:

* unit rescaling: `costs.loc[costs.unit.str.contains("/kW"), "value"] *= 1e3`
  followed by `costs.unit = costs.unit.str.replace("/kW", "/MW")`;
* default filling: `costs.value.unstack().fillna(defaults)` with the declared
  defaults dictionary;
* cross-technology propagation: the four `costs.at[...] = costs.at["gas", ...]`
  assignments (pandas `.at` updates an existing row in place and enlarges the
  frame with an otherwise-NaN row when the target row is absent);
* `annuity`, `marginal_cost` and `capital_cost` formulas.

Numeric values are modelled as exact rationals, NaN cells as `Option.none`, and
raised exceptions as `Except.error` / `Option.none` results.
-/

/-- Checks whether a character list starts with the three characters `/kW`.
This is the per-position test underlying `str.contains("/kW")` and
`str.replace("/kW", "/MW")`. -/
def isKW3 : List Char → Bool
  | a :: b :: c :: _ => decide (a = '/' ∧ b = 'k' ∧ c = 'W')
  | _ => false

/-- Substring test for `/kW`, scanning left to right: the semantics of
`costs.unit.str.contains("/kW")` on one unit string. -/
def hasKW : List Char → Bool
  | [] => false
  | a :: rest => isKW3 (a :: rest) || hasKW rest

/-- Left-to-right replacement of every occurrence of `/kW` by `/MW`: the
semantics of `str.replace("/kW", "/MW")` on one unit string. -/
def subKW : List Char → List Char
  | [] => []
  | a :: rest =>
    if isKW3 (a :: rest) then '/' :: 'M' :: 'W' :: subKW (rest.drop 2)
    else a :: subKW rest
termination_by l => l.length
decreasing_by
  all_goals simp only [List.length_cons, List.length_drop]
  all_goals omega

/-- One row of the raw long-format cost table: `(technology, parameter)` key,
numeric value and unit string. -/
structure RawRow where
  tech : String
  param : String
  value : ℚ
  unit : List Char
deriving DecidableEq

/-- Unit normalization of one raw row: values quoted per kW are scaled by 1e3
and the unit string is rewritten from `/kW` to `/MW`. -/
def normRow (row : RawRow) : RawRow :=
  ⟨row.tech, row.param, if hasKW row.unit then row.value * 1000 else row.value,
   subKW row.unit⟩

/-- Unit normalization of the raw cost table (the first two lines of the
costs preprocessing cell). -/
def rescale (t : List RawRow) : List RawRow :=
  t.map normRow

/-- One technology's row of the unstacked cost table, restricted to the columns
the preprocessing cell touches; `none` models a NaN cell. -/
structure TechRecord where
  FOM : Option ℚ
  VOM : Option ℚ
  efficiency : Option ℚ
  fuel : Option ℚ
  investment : Option ℚ
  lifetime : Option ℚ
  co2Intensity : Option ℚ
  discountRate : Option ℚ
deriving DecidableEq

/-- An all-NaN technology row, as created by pandas enlargement. -/
def emptyRec : TechRecord :=
  ⟨none, none, none, none, none, none, none, none⟩

/-- The unstacked cost table: technology-indexed rows. -/
abbrev Wide := List (String × TechRecord)

/-- First row with the given technology name, if any (pandas label lookup). -/
def lookupRec (w : Wide) (t : String) : Option TechRecord :=
  match w with
  | [] => none
  | (s, r) :: rest => if s = t then some r else lookupRec rest t

/-- Applies `f` to the row labelled `t`; if no such row exists, appends a fresh
row `f emptyRec` (pandas `.at` setter incl. setting-with-enlargement). -/
def setCell (w : Wide) (t : String) (f : TechRecord → TechRecord) : Wide :=
  match w with
  | [] => [(t, f emptyRec)]
  | (s, r) :: rest => if s = t then (s, f r) :: rest else (s, r) :: setCell rest t f

/-- Fills one cell with the default when it is NaN (`fillna` on one cell). -/
def fillField (v : Option ℚ) (d : ℚ) : Option ℚ :=
  match v with
  | none => some d
  | some x => some x

/-- Default filling of one technology row with the declared defaults table
(`FOM 0, VOM 0, efficiency 1, fuel 0, investment 0, lifetime 25,
CO2 intensity 0, discount rate 0.07`). -/
def fillRec (r : TechRecord) : TechRecord :=
  ⟨fillField r.FOM 0, fillField r.VOM 0, fillField r.efficiency 1,
   fillField r.fuel 0, fillField r.investment 0, fillField r.lifetime 25,
   fillField r.co2Intensity 0, fillField r.discountRate (7/100)⟩

/-- Default filling of the whole unstacked table (`fillna(defaults)`). -/
def fillWide (w : Wide) : Wide :=
  w.map (fun p => (p.1, fillRec p.2))

/-- Error kinds of the normalization stage. -/
inductive NormError where
  | MissingReferenceError
  | InconsistentUnitError
deriving DecidableEq

/-- Writes `r.fuel := v` (used by the propagation assignments). -/
def setFuel (v : Option ℚ) (r : TechRecord) : TechRecord :=
  ⟨r.FOM, r.VOM, r.efficiency, v, r.investment, r.lifetime, r.co2Intensity,
   r.discountRate⟩

/-- Writes `r.co2Intensity := v` (used by the propagation assignments). -/
def setCO2 (v : Option ℚ) (r : TechRecord) : TechRecord :=
  ⟨r.FOM, r.VOM, r.efficiency, r.fuel, r.investment, r.lifetime, v,
   r.discountRate⟩

/-- One assignment `costs.at[dst, col] = costs.at[src, col]`: reading a missing
source row raises (KeyError, the spec's `MissingReferenceError`); writing uses
`.at` setter semantics. -/
def copyCell (w : Wide) (src dst : String) (get : TechRecord → Option ℚ)
    (set : Option ℚ → TechRecord → TechRecord) : Except NormError Wide :=
  match lookupRec w src with
  | none => Except.error NormError.MissingReferenceError
  | some g => Except.ok (setCell w dst (set (get g)))

/-- The four propagation assignments of the preprocessing cell, in source
order: gas fuel cost to OCGT and CCGT, then gas CO2 intensity to OCGT and
CCGT. -/
def propagate (w : Wide) : Except NormError Wide :=
  Except.bind (copyCell w "gas" "OCGT" TechRecord.fuel setFuel) (fun w₁ =>
  Except.bind (copyCell w₁ "gas" "CCGT" TechRecord.fuel setFuel) (fun w₂ =>
  Except.bind (copyCell w₂ "gas" "OCGT" TechRecord.co2Intensity setCO2) (fun w₃ =>
  copyCell w₃ "gas" "CCGT" TechRecord.co2Intensity setCO2)))

/-- The endo-typed part of the Cost Normalizer on the unstacked table:
default-filling followed by cross-technology propagation. -/
def normalizeWide (w : Wide) : Except NormError Wide :=
  propagate (fillWide w)

/-- Stores one long-format value into the technology row's column, ignoring
parameters outside the modelled columns. -/
def applyParam (r : TechRecord) (param : String) (v : ℚ) : TechRecord :=
  if param = "FOM" then ⟨some v, r.VOM, r.efficiency, r.fuel, r.investment, r.lifetime, r.co2Intensity, r.discountRate⟩
  else if param = "VOM" then ⟨r.FOM, some v, r.efficiency, r.fuel, r.investment, r.lifetime, r.co2Intensity, r.discountRate⟩
  else if param = "efficiency" then ⟨r.FOM, r.VOM, some v, r.fuel, r.investment, r.lifetime, r.co2Intensity, r.discountRate⟩
  else if param = "fuel" then ⟨r.FOM, r.VOM, r.efficiency, some v, r.investment, r.lifetime, r.co2Intensity, r.discountRate⟩
  else if param = "investment" then ⟨r.FOM, r.VOM, r.efficiency, r.fuel, some v, r.lifetime, r.co2Intensity, r.discountRate⟩
  else if param = "lifetime" then ⟨r.FOM, r.VOM, r.efficiency, r.fuel, r.investment, some v, r.co2Intensity, r.discountRate⟩
  else if param = "CO2 intensity" then ⟨r.FOM, r.VOM, r.efficiency, r.fuel, r.investment, r.lifetime, some v, r.discountRate⟩
  else if param = "discount rate" then ⟨r.FOM, r.VOM, r.efficiency, r.fuel, r.investment, r.lifetime, r.co2Intensity, some v⟩
  else r

/-- Pivot of the long-format table into the technology-indexed table
(`costs.value.unstack()`), restricted to the modelled columns. -/
def unstack (t : List RawRow) : Wide :=
  t.foldl (fun w row => setCell w row.tech (fun r => applyParam r row.param row.value)) []

/-- The full Cost Normalizer: unit rescaling, pivot, default filling and
propagation. -/
def normalizeCosts (t : List RawRow) : Except NormError Wide :=
  normalizeWide (unstack (rescale t))

/-- Annuity formula of the notebook as a total rational function:
`r / (1.0 - 1.0 / (1.0 + r) ** n)` (division by zero yields 0 here and is
separately flagged by `annuity`). -/
def annuityF (r : ℚ) (n : ℕ) : ℚ :=
  r / (1 - 1 / (1 + r) ^ n)

/-- The notebook's `annuity` function; `none` models the ZeroDivisionError the
Python division raises when the denominator is zero. -/
def annuity (r : ℚ) (n : ℕ) : Option ℚ :=
  if 1 - 1 / (1 + r) ^ n = 0 then none else some (annuityF r n)

/-- Short-run marginal cost: `costs["VOM"] + costs["fuel"] / costs["efficiency"]`. -/
def marginal_cost (vom fuel efficiency : ℚ) : ℚ :=
  vom + fuel / efficiency

/-- Annualized capital cost: `(annuity + costs["FOM"] / 100) * costs["investment"]`. -/
def capital_cost (annuityFactor fom investment : ℚ) : ℚ :=
  (annuityFactor + fom / 100) * investment

/-- Per-technology annualized capital cost as derived in the notebook: the
annuity factor computed from the row's discount rate and lifetime, combined
with its FOM percentage and investment. -/
def derivedCapitalCost (r : ℚ) (n : ℕ) (fom investment : ℚ) : Option ℚ :=
  (annuity r n).map (fun a => capital_cost a fom investment)

/-- Partial sums of the discounted geometric series; `annuityF r n` is the
reciprocal of `geomTail r n` for positive rates. -/
def geomTail (r : ℚ) (n : ℕ) : ℚ :=
  ∑ k ∈ Finset.range n, (1 / (1 + r)) ^ (k + 1)

/-- Error kinds of the Model Assembler stage. -/
inductive AssemblyError where
  | ProfileLengthMismatchError
deriving DecidableEq

/-- A regularly spaced time index: start stamp, spacing and number of points. -/
structure TimeIndex where
  start : ℚ
  spacing : ℚ
  count : ℕ
deriving DecidableEq

/-- A named time-indexed sequence, e.g. a capacity-factor profile. -/
structure Profile where
  index : TimeIndex
  values : List ℚ
deriving DecidableEq

/-- One assembled variable-generator record. -/
structure VariableGenerator where
  name : String
  capacityFactors : List ℚ
  marginalCost : ℚ
  capitalCost : ℚ
deriving DecidableEq

/-- Modelled from the spec: the Model Assembler step for a variable
(weather-dependent) generator is performed by the external library call
`n.add("Generator", ..., p_max_pu=...)` and is absent from the repository; per
spec section 4.3 it binds the per-time-step upper generation bound to the
supplied capacity-factor series and fails with `ProfileLengthMismatchError` if
the profile's time index does not exactly match the model's declared time index
(same count, same spacing, same start). -/
def addVariableGenerator (snapshots : TimeIndex) (name : String) (p : Profile)
    (marginalCost capitalCost : ℚ) : Except AssemblyError VariableGenerator :=
  if p.index = snapshots then
    Except.ok ⟨name, p.values, marginalCost, capitalCost⟩
  else Except.error AssemblyError.ProfileLengthMismatchError

/-- The table produced by the four propagation assignments when the gas row
holds fuel cost `f` and CO2 intensity `c` (`propagate` unfolds to this). -/
def propChain (u : Wide) (f c : Option ℚ) : Wide :=
  setCell (setCell (setCell (setCell u "OCGT" (setFuel f)) "CCGT" (setFuel f))
    "OCGT" (setCO2 c)) "CCGT" (setCO2 c)

/-- Example gas row (all fields present; fuel cost 20, CO2 intensity 1/5). -/
def exGas : TechRecord :=
  ⟨some 3, some 2, some (2/5), some 20, some 400, some 30, some (1/5), some (7/100)⟩

/-- Example OCGT row with explicit fuel cost and CO2 intensity values that
differ from the gas row's. -/
def exOCGT : TechRecord :=
  ⟨some 7, some 4, some (41/100), some 999, some 430, some 25, some 5, some (7/100)⟩

/-- Example CCGT row with explicit fuel cost and CO2 intensity values that
differ from the gas row's. -/
def exCCGT : TechRecord :=
  ⟨some 13, some 3, some (1/2), some 888, some 830, some 25, some 6, some (7/100)⟩

/-- Example unstacked table containing gas, OCGT and CCGT rows. -/
def exTable : Wide :=
  [("gas", exGas), ("OCGT", exOCGT), ("CCGT", exCCGT)]

/-- The result of normalizing `exTable`: OCGT and CCGT carry the gas row's
fuel cost and CO2 intensity. -/
def exPropagated : Wide :=
  [("gas", exGas),
   ("OCGT", ⟨some 7, some 4, some (41/100), some 20, some 430, some 25, some (1/5), some (7/100)⟩),
   ("CCGT", ⟨some 13, some 3, some (1/2), some 20, some 830, some 25, some (1/5), some (7/100)⟩)]

/-- A table holding only a gas row (no OCGT or CCGT rows). -/
def cexTable : Wide :=
  [("gas", exGas)]

/-- First normalization of `cexTable`: propagation enlarges the table with
partial OCGT and CCGT rows whose other cells are NaN. -/
def cexOnce : Wide :=
  [("gas", exGas),
   ("OCGT", ⟨none, none, none, some 20, none, none, some (1/5), none⟩),
   ("CCGT", ⟨none, none, none, some 20, none, none, some (1/5), none⟩)]

/-- Second normalization of `cexTable`: the enlarged rows now get
default-filled, so the output differs from `cexOnce`. -/
def cexTwice : Wide :=
  [("gas", exGas),
   ("OCGT", ⟨some 0, some 0, some 1, some 20, some 0, some 25, some (1/5), some (7/100)⟩),
   ("CCGT", ⟨some 0, some 0, some 1, some 20, some 0, some 25, some (1/5), some (7/100)⟩)]

/-- Example raw long-format row quoted per kW. -/
def exRaw : List RawRow :=
  [⟨"OCGT", "investment", 430, ['E', 'U', 'R', '/', 'k', 'W']⟩]

/-- Example row with an explicit efficiency of 0.42 and a missing FOM cell. -/
def exEff : TechRecord :=
  ⟨none, some 4, some (42/100), none, none, none, none, none⟩

/-- A model time index with 8 snapshots. -/
def snaps8 : TimeIndex :=
  ⟨0, 3, 8⟩

/-- A 24-point capacity-factor profile on an hourly index. -/
def profile24 : Profile :=
  ⟨⟨0, 1, 24⟩, List.replicate 24 (1/2)⟩

theorem isKW3_nil : isKW3 [] = false := rfl

theorem isKW3_one (a : Char) : isKW3 [a] = false := rfl

theorem isKW3_two (a b : Char) : isKW3 [a, b] = false := rfl

theorem isKW3_eq (a b c : Char) (t : List Char) :
    isKW3 (a :: b :: c :: t) = decide (a = '/' ∧ b = 'k' ∧ c = 'W') := rfl

theorem hasKW_nil : hasKW [] = false := rfl

theorem hasKW_cons (a : Char) (rest : List Char) :
    hasKW (a :: rest) = (isKW3 (a :: rest) || hasKW rest) := rfl

theorem subKW_nil : subKW [] = [] := by
  rw [subKW]

theorem subKW_cons (a : Char) (rest : List Char) :
    subKW (a :: rest) =
      if isKW3 (a :: rest) then '/' :: 'M' :: 'W' :: subKW (rest.drop 2)
      else a :: subKW rest := by
  rw [subKW]

theorem isKW3_of_ne {a : Char} (l : List Char) (h : ¬ a = '/') :
    isKW3 (a :: l) = false := by
  rcases l with _ | ⟨b, _ | ⟨c, t⟩⟩
  · exact isKW3_one a
  · exact isKW3_two a b
  · rw [isKW3_eq]
    simp [h]

theorem isKW3_subKW (a : Char) (rest : List Char) (h : isKW3 (a :: rest) = false) :
    isKW3 (a :: subKW rest) = false := by
  by_cases ha : a = '/'
  · subst ha
    rcases rest with _ | ⟨b, _ | ⟨c, r₃⟩⟩
    · rw [subKW_nil]
      exact isKW3_one _
    · rw [subKW_cons, if_neg (by rw [isKW3_one]; simp), subKW_nil]
      exact isKW3_two _ _
    · by_cases hb : isKW3 (b :: c :: r₃) = true
      · rw [subKW_cons, if_pos hb, isKW3_eq]
        simp
      · rw [subKW_cons, if_neg hb]
        by_cases hc : isKW3 (c :: r₃) = true
        · rw [subKW_cons, if_pos hc, isKW3_eq]
          simp
        · rw [subKW_cons, if_neg hc]
          rw [isKW3_eq] at h ⊢
          exact h
  · exact isKW3_of_ne _ ha

theorem hasKW_subKW (l : List Char) : hasKW (subKW l) = false := by
  induction l using subKW.induct with
  | case1 =>
    rw [subKW_nil]
    exact hasKW_nil
  | case2 a rest hc ih =>
    rcases rest with _ | ⟨b, _ | ⟨c, t⟩⟩
    · rw [isKW3_one] at hc
      exact absurd hc (by simp)
    · rw [isKW3_two] at hc
      exact absurd hc (by simp)
    · rw [subKW_cons, if_pos hc]
      simp only [List.drop_succ_cons, List.drop_zero] at ih ⊢
      rw [hasKW_cons, hasKW_cons, hasKW_cons]
      rw [isKW3_eq]
      rw [isKW3_of_ne _ (by decide : ¬ ('M' : Char) = '/')]
      rw [isKW3_of_ne _ (by decide : ¬ ('W' : Char) = '/')]
      simp [ih]
  | case3 a rest hc ih =>
    rw [subKW_cons, if_neg hc, hasKW_cons]
    rw [isKW3_subKW a rest (by simpa using hc), ih]
    rfl

theorem subKW_of_not_hasKW (l : List Char) : hasKW l = false → subKW l = l := by
  induction l using subKW.induct with
  | case1 =>
    intro _
    exact subKW_nil
  | case2 a rest hc ih =>
    intro h
    rw [hasKW_cons, hc] at h
    simp at h
  | case3 a rest hc ih =>
    intro h
    rw [hasKW_cons] at h
    rw [subKW_cons, if_neg hc]
    simp only [Bool.or_eq_false_iff] at h
    rw [ih h.2]

theorem subKW_idem (l : List Char) : subKW (subKW l) = subKW l :=
  subKW_of_not_hasKW _ (hasKW_subKW l)

theorem normRow_idem (row : RawRow) : normRow (normRow row) = normRow row := by
  simp [normRow, hasKW_subKW, subKW_idem]

theorem lookupRec_nil (t : String) : lookupRec [] t = none := rfl

theorem lookupRec_cons (a : String) (r : TechRecord) (rest : Wide) (t : String) :
    lookupRec ((a, r) :: rest) t = if a = t then some r else lookupRec rest t := rfl

theorem setCell_nil (t : String) (f : TechRecord → TechRecord) :
    setCell [] t f = [(t, f emptyRec)] := rfl

theorem setCell_cons (a : String) (r : TechRecord) (rest : Wide) (t : String)
    (f : TechRecord → TechRecord) :
    setCell ((a, r) :: rest) t f =
      if a = t then (a, f r) :: rest else (a, r) :: setCell rest t f := rfl

theorem lookupRec_setCell (w : Wide) (s t : String) (f : TechRecord → TechRecord) :
    lookupRec (setCell w s f) t =
      if s = t then some (f ((lookupRec w s).getD emptyRec)) else lookupRec w t := by
  induction w with
  | nil => by_cases h : s = t <;> simp [setCell_nil, lookupRec_nil, lookupRec_cons, h]
  | cons p rest ih =>
    obtain ⟨a, r⟩ := p
    by_cases has : a = s
    · subst has
      by_cases hat : a = t <;> simp [setCell_cons, lookupRec_cons, hat]
    · by_cases hat : a = t
      · subst hat
        have hst : ¬ s = a := fun hh => has hh.symm
        simp [setCell_cons, lookupRec_cons, has, hst]
      · simp [setCell_cons, lookupRec_cons, has, hat, ih]

theorem setCell_id (w : Wide) (t : String) (f : TechRecord → TechRecord) (r : TechRecord)
    (hl : lookupRec w t = some r) (hf : f r = r) : setCell w t f = w := by
  induction w with
  | nil => simp [lookupRec_nil] at hl
  | cons p rest ih =>
    obtain ⟨a, x⟩ := p
    by_cases hat : a = t
    · subst hat
      rw [lookupRec_cons, if_pos rfl] at hl
      obtain rfl := Option.some.inj hl
      simp [setCell_cons, hf]
    · rw [lookupRec_cons, if_neg hat] at hl
      simp [setCell_cons, hat, ih hl]

theorem fillField_isSome (v : Option ℚ) (d : ℚ) : (fillField v d).isSome := by
  cases v <;> simp [fillField]

theorem fillField_idem (v : Option ℚ) (d : ℚ) :
    fillField (fillField v d) d = fillField v d := by
  cases v <;> simp [fillField]

theorem fillField_some (x : ℚ) (d : ℚ) : fillField (some x) d = some x := rfl

theorem fillRec_idem (r : TechRecord) : fillRec (fillRec r) = fillRec r := by
  cases r
  simp [fillRec, fillField_idem]

theorem fillWide_nil : fillWide [] = [] := rfl

theorem fillWide_cons (a : String) (r : TechRecord) (rest : Wide) :
    fillWide ((a, r) :: rest) = (a, fillRec r) :: fillWide rest := rfl

theorem fillWide_idem (w : Wide) : fillWide (fillWide w) = fillWide w := by
  induction w with
  | nil => rfl
  | cons p rest ih =>
    obtain ⟨a, r⟩ := p
    rw [fillWide_cons, fillWide_cons, fillRec_idem, ih]

theorem lookupRec_fillWide (w : Wide) (t : String) :
    lookupRec (fillWide w) t = (lookupRec w t).map fillRec := by
  induction w with
  | nil => rfl
  | cons p rest ih =>
    obtain ⟨a, r⟩ := p
    by_cases hat : a = t <;> simp [fillWide_cons, lookupRec_cons, hat, ih]

theorem fillRec_setFuel (x : ℚ) (r : TechRecord) :
    fillRec (setFuel (some x) r) = setFuel (some x) (fillRec r) := by
  cases r
  simp [fillRec, setFuel, fillField_some]

theorem fillRec_setCO2 (x : ℚ) (r : TechRecord) :
    fillRec (setCO2 (some x) r) = setCO2 (some x) (fillRec r) := by
  cases r
  simp [fillRec, setCO2, fillField_some]

theorem fillWide_setCell (w : Wide) (t : String) (f : TechRecord → TechRecord)
    (hp : (lookupRec w t).isSome) (hf : ∀ r, fillRec (f r) = f (fillRec r)) :
    fillWide (setCell w t f) = setCell (fillWide w) t f := by
  induction w with
  | nil => simp [lookupRec_nil] at hp
  | cons p rest ih =>
    obtain ⟨a, r⟩ := p
    by_cases hat : a = t
    · subst hat
      simp [setCell_cons, fillWide_cons, hf]
    · rw [lookupRec_cons, if_neg hat] at hp
      simp [setCell_cons, fillWide_cons, hat, ih hp]

theorem fillField_eq (v : Option ℚ) (d : ℚ) : fillField v d = some (v.getD d) := by
  cases v <;> rfl

theorem fillRec_fuel (r : TechRecord) : (fillRec r).fuel = some (r.fuel.getD 0) := by
  simp [fillRec, fillField_eq]

theorem fillRec_co2 (r : TechRecord) :
    (fillRec r).co2Intensity = some (r.co2Intensity.getD 0) := by
  simp [fillRec, fillField_eq]

theorem propagate_none (w : Wide) (h : lookupRec w "gas" = none) :
    propagate w = Except.error NormError.MissingReferenceError := by
  simp [propagate, copyCell, h, Except.bind]

theorem propagate_eq (w : Wide) (g : TechRecord) (hg : lookupRec w "gas" = some g) :
    propagate w = Except.ok (propChain w g.fuel g.co2Intensity) := by
  have h₁ : lookupRec (setCell w "OCGT" (setFuel g.fuel)) "gas" = some g := by
    rw [lookupRec_setCell, if_neg (by decide)]
    exact hg
  have h₂ : lookupRec (setCell (setCell w "OCGT" (setFuel g.fuel)) "CCGT"
      (setFuel g.fuel)) "gas" = some g := by
    rw [lookupRec_setCell, if_neg (by decide)]
    exact h₁
  have h₃ : lookupRec (setCell (setCell (setCell w "OCGT" (setFuel g.fuel)) "CCGT"
      (setFuel g.fuel)) "OCGT" (setCO2 g.co2Intensity)) "gas" = some g := by
    rw [lookupRec_setCell, if_neg (by decide)]
    exact h₂
  simp [propagate, copyCell, hg, h₁, h₂, h₃, propChain, Except.bind]

theorem lookupRec_propChain_gas (u : Wide) (f c : Option ℚ) :
    lookupRec (propChain u f c) "gas" = lookupRec u "gas" := by
  unfold propChain
  rw [lookupRec_setCell, if_neg (by decide), lookupRec_setCell, if_neg (by decide),
    lookupRec_setCell, if_neg (by decide), lookupRec_setCell, if_neg (by decide)]

theorem lookupRec_propChain_OCGT (u : Wide) (f c : Option ℚ) :
    lookupRec (propChain u f c) "OCGT" =
      some (setCO2 c (setFuel f ((lookupRec u "OCGT").getD emptyRec))) := by
  unfold propChain
  rw [lookupRec_setCell, if_neg (by decide), lookupRec_setCell, if_pos rfl,
    lookupRec_setCell, if_neg (by decide), lookupRec_setCell, if_pos rfl]
  simp

theorem lookupRec_propChain_CCGT (u : Wide) (f c : Option ℚ) :
    lookupRec (propChain u f c) "CCGT" =
      some (setCO2 c (setFuel f ((lookupRec u "CCGT").getD emptyRec))) := by
  unfold propChain
  rw [lookupRec_setCell, if_pos rfl, lookupRec_setCell, if_neg (by decide),
    lookupRec_setCell, if_pos rfl, lookupRec_setCell, if_neg (by decide)]
  simp

theorem propChain_fixed (u : Wide) (f c : Option ℚ) :
    propChain (propChain u f c) f c = propChain u f c := by
  have hO := lookupRec_propChain_OCGT u f c
  have hC := lookupRec_propChain_CCGT u f c
  show setCell (setCell (setCell (setCell (propChain u f c) "OCGT" (setFuel f)) "CCGT"
    (setFuel f)) "OCGT" (setCO2 c)) "CCGT" (setCO2 c) = propChain u f c
  rw [setCell_id _ _ _ _ hO rfl]
  rw [setCell_id _ _ _ _ hC rfl]
  rw [setCell_id _ _ _ _ hO rfl]
  rw [setCell_id _ _ _ _ hC rfl]

theorem propagate_propChain (u : Wide) (g : TechRecord)
    (hg : lookupRec u "gas" = some g) :
    propagate (propChain u g.fuel g.co2Intensity) =
      Except.ok (propChain u g.fuel g.co2Intensity) := by
  have hg' : lookupRec (propChain u g.fuel g.co2Intensity) "gas" = some g := by
    rw [lookupRec_propChain_gas]
    exact hg
  rw [propagate_eq _ g hg', propChain_fixed]

theorem fillWide_propChain (u : Wide) (x y : ℚ)
    (hO : (lookupRec u "OCGT").isSome = true) (hC : (lookupRec u "CCGT").isSome = true) :
    fillWide (propChain u (some x) (some y)) = propChain (fillWide u) (some x) (some y) := by
  have p1 : (lookupRec (setCell u "OCGT" (setFuel (some x))) "CCGT").isSome = true := by
    rw [lookupRec_setCell, if_neg (by decide)]
    exact hC
  have p2 : (lookupRec (setCell (setCell u "OCGT" (setFuel (some x))) "CCGT"
      (setFuel (some x))) "OCGT").isSome = true := by
    rw [lookupRec_setCell, if_neg (by decide), lookupRec_setCell, if_pos rfl]
    rfl
  have p3 : (lookupRec (setCell (setCell (setCell u "OCGT" (setFuel (some x))) "CCGT"
      (setFuel (some x))) "OCGT" (setCO2 (some y))) "CCGT").isSome = true := by
    rw [lookupRec_setCell, if_neg (by decide), lookupRec_setCell, if_pos rfl]
    rfl
  show fillWide (setCell (setCell (setCell (setCell u "OCGT" (setFuel (some x))) "CCGT"
    (setFuel (some x))) "OCGT" (setCO2 (some y))) "CCGT" (setCO2 (some y))) = _
  rw [fillWide_setCell _ _ _ p3 (fillRec_setCO2 y)]
  rw [fillWide_setCell _ _ _ p2 (fillRec_setCO2 y)]
  rw [fillWide_setCell _ _ _ p1 (fillRec_setFuel x)]
  rw [fillWide_setCell _ _ _ hO (fillRec_setFuel x)]
  rfl

theorem rescale_idem (t : List RawRow) : rescale (rescale t) = rescale t := by
  induction t with
  | nil => rfl
  | cons a t ih =>
    show normRow (normRow a) :: rescale (rescale t) = normRow a :: rescale t
    rw [normRow_idem, ih]

theorem geomTail_zero (r : ℚ) : geomTail r 0 = 0 := by
  simp [geomTail]

theorem geomTail_succ (r : ℚ) (n : ℕ) :
    geomTail r (n + 1) = geomTail r n + (1 / (1 + r)) ^ (n + 1) := by
  simp [geomTail, Finset.sum_range_succ]

theorem denom_eq_geomTail (r : ℚ) (hr : 0 < r) (n : ℕ) :
    1 - 1 / (1 + r) ^ n = r * geomTail r n := by
  have h1 : (1 : ℚ) + r ≠ 0 := by linarith
  induction n with
  | zero => simp [geomTail_zero]
  | succ n ih =>
    have h2 : ((1 : ℚ) + r) ^ n ≠ 0 := pow_ne_zero _ h1
    rw [geomTail_succ, mul_add, ← ih, div_pow, one_pow]
    field_simp
    ring

theorem geomTail_pos (r : ℚ) (hr : 0 < r) (n : ℕ) (hn : n ≠ 0) :
    0 < geomTail r n := by
  apply Finset.sum_pos
  · intro i _
    apply pow_pos
    apply div_pos one_pos
    linarith
  · exact Finset.nonempty_range_iff.mpr hn

theorem annuityF_eq_inv_geomTail (r : ℚ) (hr : 0 < r) (n : ℕ) :
    annuityF r n = 1 / geomTail r n := by
  rw [annuityF, denom_eq_geomTail r hr n]
  by_cases hg : geomTail r n = 0
  · simp [hg]
  · field_simp

theorem geomTail_anti_r (n : ℕ) (hn : n ≠ 0) (r₁ r₂ : ℚ) (h1 : 0 < r₁)
    (h12 : r₁ < r₂) : geomTail r₂ n < geomTail r₁ n := by
  apply Finset.sum_lt_sum_of_nonempty (Finset.nonempty_range_iff.mpr hn)
  intro i _
  apply pow_lt_pow_left₀ _ _ (Nat.succ_ne_zero i)
  · apply one_div_lt_one_div_of_lt (by linarith) (by linarith)
  · apply le_of_lt
    apply div_pos one_pos
    linarith

theorem geomTail_mono_n (r : ℚ) (hr : 0 < r) (n₁ n₂ : ℕ) (h : n₁ < n₂) :
    geomTail r n₁ < geomTail r n₂ := by
  apply Finset.sum_lt_sum_of_subset (Finset.range_subset.mpr (le_of_lt h))
    (Finset.mem_range.mpr h) (by simp)
  · apply pow_pos
    apply div_pos one_pos
    linarith
  · intro j _ _
    positivity

theorem denom_pos (r : ℚ) (hr : 0 < r) (n : ℕ) (hn : n ≠ 0) :
    0 < 1 - 1 / (1 + r) ^ n := by
  rw [denom_eq_geomTail r hr n]
  exact mul_pos hr (geomTail_pos r hr n hn)

theorem annuity_eq_some (r : ℚ) (hr : 0 < r) (n : ℕ) (hn : n ≠ 0) :
    annuity r n = some (annuityF r n) := by
  rw [annuity, if_neg (ne_of_gt (denom_pos r hr n hn))]

/-- C1 (counterexample): at discount rate 0 and lifetime 20 the notebook's
annuity function hits a zero denominator and raises (returns no value), so it
does not return the limit value 1/20. -/
theorem annuity_zero_rate_cex : annuity 0 20 = none := by
  norm_num [annuity]

/-- C1 (amended): for every lifetime n, evaluating the annuity function at
discount rate 0 makes the denominator `1 - (1+0)^(-n)` zero, so the division
raises (models Python's ZeroDivisionError) instead of returning 1/n. -/
theorem annuity_zero_rate (n : ℕ) : annuity 0 n = none := by
  simp [annuity]

/-- C3: default-filling substitutes exactly the declared default table
(FOM 0, VOM 0, efficiency 1, fuel 0, investment 0, lifetime 25,
CO2 intensity 0, discount rate 0.07) and only for missing fields; every
present value is preserved unchanged. -/
theorem fillDefaults_exact (r : TechRecord) :
    ((∀ v, r.FOM = some v → (fillRec r).FOM = some v) ∧
      (r.FOM = none → (fillRec r).FOM = some 0)) ∧
    ((∀ v, r.VOM = some v → (fillRec r).VOM = some v) ∧
      (r.VOM = none → (fillRec r).VOM = some 0)) ∧
    ((∀ v, r.efficiency = some v → (fillRec r).efficiency = some v) ∧
      (r.efficiency = none → (fillRec r).efficiency = some 1)) ∧
    ((∀ v, r.fuel = some v → (fillRec r).fuel = some v) ∧
      (r.fuel = none → (fillRec r).fuel = some 0)) ∧
    ((∀ v, r.investment = some v → (fillRec r).investment = some v) ∧
      (r.investment = none → (fillRec r).investment = some 0)) ∧
    ((∀ v, r.lifetime = some v → (fillRec r).lifetime = some v) ∧
      (r.lifetime = none → (fillRec r).lifetime = some 25)) ∧
    ((∀ v, r.co2Intensity = some v → (fillRec r).co2Intensity = some v) ∧
      (r.co2Intensity = none → (fillRec r).co2Intensity = some 0)) ∧
    ((∀ v, r.discountRate = some v → (fillRec r).discountRate = some v) ∧
      (r.discountRate = none → (fillRec r).discountRate = some (7/100))) := by
  obtain ⟨f₁, f₂, f₃, f₄, f₅, f₆, f₇, f₈⟩ := r
  refine ⟨⟨fun v h => ?_, fun h => ?_⟩, ⟨fun v h => ?_, fun h => ?_⟩,
    ⟨fun v h => ?_, fun h => ?_⟩, ⟨fun v h => ?_, fun h => ?_⟩,
    ⟨fun v h => ?_, fun h => ?_⟩, ⟨fun v h => ?_, fun h => ?_⟩,
    ⟨fun v h => ?_, fun h => ?_⟩, ⟨fun v h => ?_, fun h => ?_⟩⟩ <;>
  · subst h
    rfl

/-- C3 (witness): a row with explicit efficiency 0.42 keeps it after filling,
while its missing FOM cell receives the default 0. -/
theorem fillDefaults_exact_witness :
    (fillRec exEff).efficiency = some (42/100) ∧ (fillRec exEff).FOM = some 0 :=
  ⟨(fillDefaults_exact exEff).2.2.1.1 (42/100) rfl, (fillDefaults_exact exEff).1.2 rfl⟩

/-- C4: for positive efficiency, the derived marginal cost equals
`variable cost + fuel cost / efficiency`, and doubling the fuel cost exactly
doubles the fuel-cost contribution (marginal cost minus variable cost). -/
theorem marginalCost_linear (vom fuel eff : ℚ) (h : 0 < eff) :
    marginal_cost vom fuel eff = vom + fuel / eff ∧
    marginal_cost vom (2 * fuel) eff - vom = 2 * (marginal_cost vom fuel eff - vom) := by
  refine ⟨rfl, ?_⟩
  rw [marginal_cost, marginal_cost]
  ring

/-- C4 (witness): the marginal-cost formula and fuel-cost linearity evaluated
at variable cost 3, fuel cost 5 and efficiency 1/2. -/
theorem marginalCost_linear_witness :
    marginal_cost 3 5 (1/2) = 3 + 5 / (1/2) ∧
    marginal_cost 3 (2 * 5) (1/2) - 3 = 2 * (marginal_cost 3 5 (1/2) - 3) :=
  marginalCost_linear 3 5 (1/2) (by norm_num)

/-- C5: the annualized capital cost derived from a row equals
`(annuity factor + FOM/100) * investment`, the fixed-cost fraction being the
recorded FOM percentage divided by 100. -/
theorem capitalCost_formula (r : ℚ) (n : ℕ) (fom inv a : ℚ)
    (h : annuity r n = some a) :
    derivedCapitalCost r n fom inv = some ((a + fom / 100) * inv) := by
  simp [derivedCapitalCost, h, capital_cost]

/-- C5 (witness): with discount rate 1 and lifetime 1 the annuity factor is 2,
and the derived capital cost of FOM 50 and investment 10 is (2 + 50/100)*10. -/
theorem capitalCost_formula_witness :
    annuity 1 1 = some 2 ∧
    derivedCapitalCost 1 1 50 10 = some ((2 + 50 / 100) * 10) :=
  ⟨by norm_num [annuity, annuityF], capitalCost_formula 1 1 50 10 2 (by norm_num [annuity, annuityF])⟩

/-- C6: propagation stores independent copies: editing the gas row's fuel cost
or CO2 intensity in a propagated table leaves the OCGT and CCGT rows (and so
their already-copied values) unchanged. -/
theorem propagation_copies_independent (w w' : Wide)
    (hw : propagate w = Except.ok w') (v : Option ℚ) :
    lookupRec (setCell w' "gas" (setFuel v)) "OCGT" = lookupRec w' "OCGT" ∧
    lookupRec (setCell w' "gas" (setFuel v)) "CCGT" = lookupRec w' "CCGT" ∧
    lookupRec (setCell w' "gas" (setCO2 v)) "OCGT" = lookupRec w' "OCGT" ∧
    lookupRec (setCell w' "gas" (setCO2 v)) "CCGT" = lookupRec w' "CCGT" := by
  refine ⟨?_, ?_, ?_, ?_⟩ <;> rw [lookupRec_setCell, if_neg (by decide)]

/-- C6 (witness): editing the gas row of the concretely propagated example
table does not change the OCGT or CCGT rows. -/
theorem propagation_copies_independent_witness :
    lookupRec (setCell exPropagated "gas" (setFuel (some 50))) "OCGT" =
      lookupRec exPropagated "OCGT" ∧
    lookupRec (setCell exPropagated "gas" (setFuel (some 50))) "CCGT" =
      lookupRec exPropagated "CCGT" ∧
    lookupRec (setCell exPropagated "gas" (setCO2 (some 50))) "OCGT" =
      lookupRec exPropagated "OCGT" ∧
    lookupRec (setCell exPropagated "gas" (setCO2 (some 50))) "CCGT" =
      lookupRec exPropagated "CCGT" :=
  propagation_copies_independent exTable exPropagated rfl (some 50)

/-- C7: on every table without a gas row, the propagation step fails with
MissingReferenceError (the KeyError of the first `costs.at["gas", ...]`
read). -/
theorem propagation_missing_gas (w : Wide) (h : lookupRec w "gas" = none) :
    propagate w = Except.error NormError.MissingReferenceError :=
  propagate_none w h

/-- C7 (witness): a table holding only an OCGT row makes propagation fail with
MissingReferenceError. -/
theorem propagation_missing_gas_witness :
    lookupRec ([("OCGT", exOCGT)] : Wide) "gas" = none ∧
    propagate [("OCGT", exOCGT)] = Except.error NormError.MissingReferenceError :=
  ⟨rfl, propagation_missing_gas [("OCGT", exOCGT)] rfl⟩

/-- C8 (modelled from the spec): assembling a variable generator fails with
ProfileLengthMismatchError whenever the profile's time index differs from the
declared snapshot index. -/
theorem profileMismatch_error (snapshots : TimeIndex) (name : String)
    (p : Profile) (mc cc : ℚ) (h : ¬ p.index = snapshots) :
    addVariableGenerator snapshots name p mc cc =
      Except.error AssemblyError.ProfileLengthMismatchError := by
  rw [addVariableGenerator, if_neg h]

/-- C8 (witness): a 24-point hourly profile supplied to a model with 8
three-hourly snapshots raises ProfileLengthMismatchError. -/
theorem profileMismatch_error_witness :
    ¬ profile24.index = snaps8 ∧ profile24.index.count = 24 ∧ snaps8.count = 8 ∧
    addVariableGenerator snaps8 "wind" profile24 5 1000 =
      Except.error AssemblyError.ProfileLengthMismatchError :=
  ⟨by decide, rfl, rfl, profileMismatch_error snaps8 "wind" profile24 5 1000 (by decide)⟩

/-- C9: the annuity factor is strictly increasing in the discount rate (for
fixed positive lifetime, over positive rates), strictly decreasing in the
lifetime (for fixed positive rate), and for positive rates the annuity
function returns exactly this factor. -/
theorem annuity_strict_monotone :
    (∀ (n : ℕ) (r₁ r₂ : ℚ), n ≠ 0 → 0 < r₁ → r₁ < r₂ →
      annuityF r₁ n < annuityF r₂ n) ∧
    (∀ (r : ℚ) (n₁ n₂ : ℕ), 0 < r → n₁ ≠ 0 → n₁ < n₂ →
      annuityF r n₂ < annuityF r n₁) ∧
    (∀ (r : ℚ) (n : ℕ), 0 < r → n ≠ 0 → annuity r n = some (annuityF r n)) := by
  refine ⟨?_, ?_, ?_⟩
  · intro n r₁ r₂ hn h1 h12
    have h2 : 0 < r₂ := lt_trans h1 h12
    rw [annuityF_eq_inv_geomTail r₁ h1, annuityF_eq_inv_geomTail r₂ h2]
    exact one_div_lt_one_div_of_lt (geomTail_pos r₂ h2 n hn)
      (geomTail_anti_r n hn r₁ r₂ h1 h12)
  · intro r n₁ n₂ hr hn h
    rw [annuityF_eq_inv_geomTail r hr, annuityF_eq_inv_geomTail r hr]
    exact one_div_lt_one_div_of_lt (geomTail_pos r hr n₁ hn)
      (geomTail_mono_n r hr n₁ n₂ h)
  · intro r n hr hn
    exact annuity_eq_some r hr n hn

/-- C9 (witness): the strict monotonicity and the value equation evaluated at
rates 1 and 2 and lifetimes 1 and 2. -/
theorem annuity_strict_monotone_witness :
    annuityF 1 1 < annuityF 2 1 ∧ annuityF 1 2 < annuityF 1 1 ∧
    annuity 1 1 = some (annuityF 1 1) :=
  ⟨annuity_strict_monotone.1 1 1 2 one_ne_zero one_pos one_lt_two,
   annuity_strict_monotone.2.1 1 1 2 one_pos one_ne_zero one_lt_two,
   annuity_strict_monotone.2.2 1 1 one_pos one_ne_zero⟩

/-- C10: propagation assigns unconditionally: in every table containing gas,
OCGT and CCGT rows, after propagation the OCGT and CCGT rows carry exactly the
gas row's fuel cost and CO2 intensity (their previous values, even explicit
different ones, are overwritten; all other fields are untouched). -/
theorem propagate_overwrites (w w' : Wide) (g o c : TechRecord)
    (hg : lookupRec w "gas" = some g) (ho : lookupRec w "OCGT" = some o)
    (hc : lookupRec w "CCGT" = some c) (hw : propagate w = Except.ok w') :
    lookupRec w' "OCGT" = some (setCO2 g.co2Intensity (setFuel g.fuel o)) ∧
    lookupRec w' "CCGT" = some (setCO2 g.co2Intensity (setFuel g.fuel c)) ∧
    (setCO2 g.co2Intensity (setFuel g.fuel o)).fuel = g.fuel ∧
    (setCO2 g.co2Intensity (setFuel g.fuel o)).co2Intensity = g.co2Intensity ∧
    (setCO2 g.co2Intensity (setFuel g.fuel c)).fuel = g.fuel ∧
    (setCO2 g.co2Intensity (setFuel g.fuel c)).co2Intensity = g.co2Intensity := by
  rw [propagate_eq w g hg] at hw
  have hw' : propChain w g.fuel g.co2Intensity = w' := by simpa using hw
  subst hw'
  refine ⟨?_, ?_, rfl, rfl, rfl, rfl⟩
  · rw [lookupRec_propChain_OCGT, ho]
    rfl
  · rw [lookupRec_propChain_CCGT, hc]
    rfl

/-- C10 (witness): in the example table the OCGT row's explicit fuel cost 999
and CO2 intensity 5 are overwritten by the gas row's 20 and 1/5. -/
theorem propagate_overwrites_witness :
    lookupRec exPropagated "OCGT" =
      some (setCO2 exGas.co2Intensity (setFuel exGas.fuel exOCGT)) ∧
    lookupRec exPropagated "CCGT" =
      some (setCO2 exGas.co2Intensity (setFuel exGas.fuel exCCGT)) ∧
    (setCO2 exGas.co2Intensity (setFuel exGas.fuel exOCGT)).fuel = exGas.fuel ∧
    (setCO2 exGas.co2Intensity (setFuel exGas.fuel exOCGT)).co2Intensity = exGas.co2Intensity ∧
    (setCO2 exGas.co2Intensity (setFuel exGas.fuel exCCGT)).fuel = exGas.fuel ∧
    (setCO2 exGas.co2Intensity (setFuel exGas.fuel exCCGT)).co2Intensity = exGas.co2Intensity :=
  propagate_overwrites exTable exPropagated exGas exOCGT exCCGT rfl rfl rfl rfl

/-- C2 (amended): the unit-rescaling step is idempotent on every raw table (no
value is ever rescaled twice, since the rewritten unit strings no longer
contain `/kW`), and the default-fill-and-propagate stage is idempotent on every
table that already contains OCGT and CCGT rows; when one of those rows is
absent, propagation enlarges the table with a partial row that only the second
run default-fills, so plain idempotence fails there. -/
theorem normalizer_idempotent :
    (∀ t : List RawRow, rescale (rescale t) = rescale t) ∧
    ∀ w w' : Wide, (lookupRec w "OCGT").isSome = true →
      (lookupRec w "CCGT").isSome = true →
      normalizeWide w = Except.ok w' → normalizeWide w' = Except.ok w' := by
  constructor
  · exact rescale_idem
  · intro w w' hO hC h
    rw [normalizeWide] at h
    cases hgas : lookupRec (fillWide w) "gas" with
    | none =>
      rw [propagate_none _ hgas] at h
      simp at h
    | some g₀ =>
      rw [propagate_eq _ g₀ hgas] at h
      have hw : propChain (fillWide w) g₀.fuel g₀.co2Intensity = w' := by
        simpa using h
      subst hw
      obtain ⟨g, hgw, rfl⟩ : ∃ g, lookupRec w "gas" = some g ∧ g₀ = fillRec g := by
        rw [lookupRec_fillWide] at hgas
        cases hh : lookupRec w "gas" with
        | none =>
          rw [hh] at hgas
          simp at hgas
        | some g =>
          rw [hh] at hgas
          simp at hgas
          exact ⟨g, rfl, hgas.symm⟩
      have hOf : (lookupRec (fillWide w) "OCGT").isSome = true := by
        rw [lookupRec_fillWide]
        cases ho : lookupRec w "OCGT" with
        | none =>
          rw [ho] at hO
          simp at hO
        | some o => rfl
      have hCf : (lookupRec (fillWide w) "CCGT").isSome = true := by
        rw [lookupRec_fillWide]
        cases hco : lookupRec w "CCGT" with
        | none =>
          rw [hco] at hC
          simp at hC
        | some o => rfl
      rw [normalizeWide, fillRec_fuel, fillRec_co2]
      rw [fillWide_propChain _ _ _ hOf hCf, fillWide_idem]
      have hlook : lookupRec (fillWide w) "gas" = some (fillRec g) := by
        rw [lookupRec_fillWide, hgw]
        rfl
      have hp := propagate_propChain (fillWide w) (fillRec g) hlook
      rwa [fillRec_fuel, fillRec_co2] at hp

/-- C2 (witness): rescaling the example raw table twice equals rescaling once,
and the fill-and-propagate stage maps the example table (which has OCGT and
CCGT rows) to `exPropagated` and then fixes it. -/
theorem normalizer_idempotent_witness :
    rescale (rescale exRaw) = rescale exRaw ∧
    (lookupRec exTable "OCGT").isSome = true ∧
    (lookupRec exTable "CCGT").isSome = true ∧
    normalizeWide exTable = Except.ok exPropagated ∧
    normalizeWide exPropagated = Except.ok exPropagated :=
  ⟨normalizer_idempotent.1 exRaw, rfl, rfl, rfl,
   normalizer_idempotent.2 exTable exPropagated rfl rfl rfl⟩

/-- C2 (counterexample): on a table holding only a gas row, the first
normalization enlarges the table with partial OCGT and CCGT rows, and the
second normalization default-fills them, so running the stage twice does not
reproduce the output of running it once. -/
theorem normalizer_not_idempotent_cex :
    normalizeWide cexTable = Except.ok cexOnce ∧
    normalizeWide cexOnce = Except.ok cexTwice ∧
    cexOnce ≠ cexTwice := by
  refine ⟨rfl, rfl, fun h => ?_⟩
  have h2 := congrArg (fun w => lookupRec w "OCGT") h
  simp [cexOnce, cexTwice, lookupRec] at h2
